import Mathlib

/-!
Verification of the GraphQL tutorial repository (`guiguil03/graphQL`).

The repository is a documentation set plus small demonstration servers.
The executable content that the claims are about is shallowly embedded
here, one namespace per source artefact:

* `Docs4` — the cursor-paginated `users` resolver from the
  authentication/best-practices chapter (in-memory list backend).
* `Docs5` — the cursor-paginated `posts` resolver, the `updatePost` /
  `deletePost` mutations, and the pooled `query` helper from the
  PostgreSQL chapter.
* `Prisma` — the resolvers of `server.js` over a Prisma client, the
  client itself modelled from the spec (it is not part of the sources).
* `ArrayApi` — the array-backed variant server (`postID`, `postSummary`,
  `postContent`, `createPost`, `updatePost`, `deletePost`).
* `Server` — the port-fallback loop `startListening` of `server.js`.

JavaScript mechanics that matter to the claims are made explicit:
strict equality (`===`) between a string id and a numeric id is false,
so ids are a sum type `JsId`; functions that can throw return `Except`;
`undefined` arguments are `Option.none`.
-/

namespace Docs4

/-- A user record as stored in the in-memory `db.users` list of the
documentation example (only `id` is inspected by the resolver; the other
fields ride along as data). -/
structure User where
  id : String
  name : String
  email : String
deriving Repr, DecidableEq

structure PageInfo where
  hasNextPage : Bool
  endCursor : Option String
deriving Repr, DecidableEq

/-- `edges` pairs each node with its cursor (the user's id). -/
structure UserConnection where
  edges : List (User × String)
  pageInfo : PageInfo
deriving Repr, DecidableEq

/-- The `afterIndex` computation of the resolver: `0` when no cursor is
supplied or the cursor matches no user, otherwise one past the index of
the matching user (`findIndex` + 1). -/
def usersAfterIndex (allUsers : List User) (after : Option String) : Nat :=
  match after with
  | none => 0
  | some a =>
    match allUsers.findIdx? (fun u => u.id == a) with
    | some index => index + 1
    | none => 0

/-- The cursor-paginated `users` resolver: slice `first` records starting
at `afterIndex`, report `hasNextPage` by comparing `afterIndex + first`
against the total count, and expose the last included id as `endCursor`. -/
def users (allUsers : List User) (first : Nat) (after : Option String) :
    UserConnection :=
  let afterIndex := usersAfterIndex allUsers after
  let slicedUsers := (allUsers.drop afterIndex).take first
  let edges := slicedUsers.map (fun u => (u, u.id))
  let hasNextPage := decide (afterIndex + first < allUsers.length)
  { edges := edges
    pageInfo :=
      { hasNextPage := hasNextPage
        endCursor := edges.getLast?.map (fun e => e.2) } }

/-- The records lying strictly beyond the cursor position. -/
def recordsBeyond (allUsers : List User) (after : Option String) : List User :=
  allUsers.drop (usersAfterIndex allUsers after)

end Docs4

namespace Docs5

/-- A row of the `posts` table of the PostgreSQL chapter. -/
structure Post where
  id : Nat
  title : String
  content : String
  published : Bool
  authorId : Nat
  createdAt : String
  updatedAt : Option String
deriving Repr, DecidableEq

structure PageInfo where
  hasNextPage : Bool
  endCursor : Option Nat
deriving Repr, DecidableEq

/-- Cursors are base64-encoded decimal ids; base64 is a bijection on
strings, so cursors are modelled by the underlying numeric id itself. -/
structure PostConnection where
  edges : List (Post × Nat)
  pageInfo : PageInfo
deriving Repr, DecidableEq

/-- The SQL fetch `SELECT * FROM posts [WHERE id > cursor] ORDER BY id
LIMIT limit` over a table of rows. -/
def postsFetch (table : List Post) (after : Option Nat) (limit : Nat) :
    List Post :=
  let filtered :=
    match after with
    | some c => table.filter (fun (p : Post) => decide (c < p.id))
    | none => table
  (filtered.mergeSort (fun a b => decide (a.id ≤ b.id))).take limit

/-- The cursor-paginated `posts` resolver: fetch `first + 1` rows past the
cursor, use the extra row only to decide `hasNextPage`, and return the
first `first` rows as edges. -/
def posts (table : List Post) (first : Nat) (after : Option Nat) :
    PostConnection :=
  let rows := postsFetch table after (first + 1)
  let hasNextPage := decide (first < rows.length)
  let edges := (rows.take first).map (fun p => (p, p.id))
  { edges := edges
    pageInfo :=
      { hasNextPage := hasNextPage
        endCursor := edges.getLast?.map (fun e => e.2) } }

/-- The rows lying strictly beyond the cursor position (`id > cursor`),
i.e. all rows the paginated query ranges over. -/
def rowsBeyond (table : List Post) (after : Option Nat) : List Post :=
  match after with
  | some c => table.filter (fun (p : Post) => decide (c < p.id))
  | none => table

end Docs5

/-- C1: for every record list, page size `N ≥ 0` and cursor position, both
cursor-pagination resolvers return at most `N` edges, and `hasNextPage` is
true iff more than `N` records exist beyond the cursor position (the
`posts` resolver fetches one extra row past `N` to decide this, the
`users` resolver compares indices against the total count). -/
theorem c1_pagination_bounds (allUsers : List Docs4.User)
    (table : List Docs5.Post) (first : Nat) (afterU : Option String)
    (afterP : Option Nat) :
    (Docs4.users allUsers first afterU).edges.length ≤ first ∧
      ((Docs4.users allUsers first afterU).pageInfo.hasNextPage = true ↔
        first < (Docs4.recordsBeyond allUsers afterU).length) ∧
      (Docs5.posts table first afterP).edges.length ≤ first ∧
      ((Docs5.posts table first afterP).pageInfo.hasNextPage = true ↔
        first < (Docs5.rowsBeyond table afterP).length) := by
  refine ⟨?_, ?_, ?_, ?_⟩
  · simp [Docs4.users]
  · simp only [Docs4.users, Docs4.recordsBeyond, decide_eq_true_eq,
      List.length_drop]
    omega
  · simp [Docs5.posts]
  · have hlen : (Docs5.postsFetch table afterP (first + 1)).length =
        min (first + 1) (Docs5.rowsBeyond table afterP).length := by
      simp only [Docs5.postsFetch, Docs5.rowsBeyond, List.length_take]
      cases afterP <;>
        simp [List.length_mergeSort]
    simp only [Docs5.posts, decide_eq_true_eq, hlen]
    omega

/-- C2 counterexample: with one user in the store and `first = 0`, the
returned edge list is empty yet `hasNextPage` is `true` (the claim says an
empty edge list forces `hasNextPage = false`). -/
theorem c2_counterexample :
    (Docs4.users [⟨"1", "Guigui", "g@example.com"⟩] 0 none).edges = [] ∧
      (Docs4.users [⟨"1", "Guigui", "g@example.com"⟩] 0
          none).pageInfo.hasNextPage = true := by
  decide

/-- C2 (amended): when no `after` cursor is supplied both resolvers start
from the first record in the sort order; whenever the returned edge list
is empty `endCursor` is null; and, provided the page size is positive, an
empty edge list also forces `hasNextPage = false` (for `first = 0` the
edge list is empty while `hasNextPage` still reports whether records
remain). -/
theorem c2_pagination_edge_cases (allUsers : List Docs4.User)
    (table : List Docs5.Post) (first : Nat) (afterU : Option String)
    (afterP : Option Nat) :
    ((Docs4.users allUsers first none).edges =
        (allUsers.take first).map (fun u => (u, u.id)) ∧
      (Docs5.posts table first none).edges =
        (((table.mergeSort (fun a b => decide (a.id ≤ b.id))).take
            first).map (fun p => (p, p.id)))) ∧
    ((Docs4.users allUsers first afterU).edges = [] →
        (Docs4.users allUsers first afterU).pageInfo.endCursor = none) ∧
    ((Docs5.posts table first afterP).edges = [] →
        (Docs5.posts table first afterP).pageInfo.endCursor = none) ∧
    (0 < first → (Docs4.users allUsers first afterU).edges = [] →
        (Docs4.users allUsers first afterU).pageInfo.hasNextPage = false) ∧
    (0 < first → (Docs5.posts table first afterP).edges = [] →
        (Docs5.posts table first afterP).pageInfo.hasNextPage = false) := by
  refine ⟨⟨?_, ?_⟩, ?_, ?_, ?_, ?_⟩
  · simp [Docs4.users, Docs4.usersAfterIndex]
  · simp only [Docs5.posts, Docs5.postsFetch, List.take_take]
    simp [Nat.min_def]
  · intro h
    simp only [Docs4.users] at h ⊢
    rw [h]
    rfl
  · intro h
    simp only [Docs5.posts] at h ⊢
    rw [h]
    rfl
  · intro hfirst h
    simp only [Docs4.users, List.map_eq_nil_iff, List.take_eq_nil_iff,
      List.drop_eq_nil_iff] at h
    simp only [Docs4.users, decide_eq_false_iff_not]
    omega
  · intro hfirst h
    simp only [Docs5.posts, List.map_eq_nil_iff, List.take_eq_nil_iff,
      List.length_eq_zero] at h
    have hlen : (Docs5.postsFetch table afterP (first + 1)).length = 0 := by
      rcases h with h | h
      · omega
      · simp [h]
    simp only [Docs5.posts, decide_eq_false_iff_not]
    omega

/-- C2 witness: the amended statement instantiated at an empty store with
page size 1. -/
theorem c2_pagination_edge_cases_witness :
    (Docs4.users [] 1 none).pageInfo.endCursor = none ∧
      (Docs5.posts [] 1 none).pageInfo.hasNextPage = false := by
  have h := c2_pagination_edge_cases [] [] 1 none none
  exact ⟨h.2.1 (by decide),
    h.2.2.2.2 (by decide) (by simp [Docs5.posts, Docs5.postsFetch])⟩

namespace Server

/-- Outcome of a single `app.listen(port)` attempt: the bind succeeds, the
port is already bound (`EADDRINUSE`), or some other listen error occurs. -/
inductive PortStatus where
  | free
  | inUse
  | otherError
deriving Repr, DecidableEq

/-- The fixed ordered port list of `server.js`. -/
def ports : List Nat := [4000, 4001, 4002, 4003, 5000]

/-- Result of the bootstrap loop: bound to a port, gave up after logging
the final failure message, or stopped on a non-`EADDRINUSE` error (which
is only logged). In every case the loop returns normally — no constructor
models a crash or an escaping exception. -/
inductive StartResult where
  | bound (port : Nat)
  | allPortsBusy
  | failedOther (port : Nat)
deriving Repr, DecidableEq

/-- The `startListening` recursion of `server.js`, indexed by the suffix
of `ports` still to try (`portIndex ≥ ports.length` is the `[]` case):
try the current port; on `EADDRINUSE` close and recurse on the next port;
on another error log and stop; when the list is exhausted log the final
failure message and return. `status` gives each port's bind outcome. -/
def startListening (status : Nat → PortStatus) : List Nat → StartResult
  | [] => .allPortsBusy
  | p :: rest =>
    match status p with
    | .free => .bound p
    | .inUse => startListening status rest
    | .otherError => .failedOther p

end Server

/-- C3: the bootstrap tries the fixed list 4000, 4001, 4002, 4003, 5000;
an `EADDRINUSE` conflict on the current port advances to the next port
(in particular, primary port busy and 4001 free binds 4001), and when
every listed port is busy the loop returns the all-ports-busy failure
outcome (a logged message, not a thrown error). -/
theorem c3_port_fallback (status : Nat → Server.PortStatus) :
    (∀ p rest, status p = .inUse →
        Server.startListening status (p :: rest) =
          Server.startListening status rest) ∧
    (status 4000 = .inUse → status 4001 = .free →
        Server.startListening status Server.ports = .bound 4001) ∧
    ((∀ p ∈ Server.ports, status p = .inUse) →
        Server.startListening status Server.ports = .allPortsBusy) := by
  refine ⟨?_, ?_, ?_⟩
  · intro p rest h
    simp [Server.startListening, h]
  · intro h0 h1
    simp [Server.ports, Server.startListening, h0, h1]
  · intro h
    have h0 := h 4000 (by simp [Server.ports])
    have h1 := h 4001 (by simp [Server.ports])
    have h2 := h 4002 (by simp [Server.ports])
    have h3 := h 4003 (by simp [Server.ports])
    have h4 := h 5000 (by simp [Server.ports])
    simp [Server.ports, Server.startListening, h0, h1, h2, h3, h4]

/-- C3 witness: with 4000 busy and every other port free the server binds
4001; with every port busy the loop reports all ports busy. -/
theorem c3_port_fallback_witness :
    Server.startListening
        (fun p => if p = 4000 then .inUse else .free) Server.ports =
      .bound 4001 ∧
    Server.startListening (fun _ => .inUse) Server.ports =
      .allPortsBusy := by
  refine ⟨?_, ?_⟩
  · exact (c3_port_fallback
      (fun p => if p = 4000 then .inUse else .free)).2.1
      (by decide) (by decide)
  · exact (c3_port_fallback (fun _ => .inUse)).2.2
      (fun p _ => rfl)

namespace Db

/-- The connection pool, abstracted to its observable counter: how many
connections are currently available for checkout. -/
structure Pool where
  available : Nat
deriving Repr, DecidableEq

/-- Checkout and return events, recorded in the order they happen. -/
inductive PoolEvent where
  | connect
  | release
deriving Repr, DecidableEq

def connect (p : Pool) : Pool := { available := p.available - 1 }

def release (p : Pool) : Pool := { available := p.available + 1 }

/-- The `query` helper of the data-access module: check out a client from
the pool, run the SQL query on it (its outcome — rows or a thrown
error — is the parameter `outcome`), and release the client in a
`finally` block, so the release happens on both paths. Returns the
query's outcome, the final pool state and the event trace. -/
def query (p : Pool) (outcome : Except String (List String)) :
    Except String (List String) × Pool × List PoolEvent :=
  let afterConnect := connect p
  let afterRelease := release afterConnect
  (outcome, afterRelease, [PoolEvent.connect, PoolEvent.release])

end Db

/-- C8: every call of the db `query` helper checks out exactly one
connection and releases exactly that one before returning — the trace is
one connect followed by one release — and, whether the SQL query succeeds
or throws, the pool's available-connection count is restored (the pool
must have a connection to hand out, else `connect` blocks). The helper
propagates the query's own outcome unchanged. -/
theorem c8_pool_checkout_release (p : Db.Pool)
    (outcome : Except String (List String)) (h : 0 < p.available) :
    (Db.query p outcome).2.2 = [Db.PoolEvent.connect, Db.PoolEvent.release] ∧
      (Db.query p outcome).2.1 = p ∧
      (Db.query p outcome).1 = outcome := by
  refine ⟨rfl, ?_, rfl⟩
  simp only [Db.query, Db.release, Db.connect]
  cases p with
  | mk available =>
    have h' : 0 < available := h
    simp only [Db.Pool.mk.injEq]
    omega

/-- C8 witness: a pool with one available connection, on both a
successful and a failing query. -/
theorem c8_pool_checkout_release_witness :
    (Db.query ⟨1⟩ (Except.ok ["row"])).2.1 = (⟨1⟩ : Db.Pool) ∧
      (Db.query ⟨1⟩ (Except.error "boom")).2.2 =
        [Db.PoolEvent.connect, Db.PoolEvent.release] := by
  exact ⟨(c8_pool_checkout_release ⟨1⟩ (Except.ok ["row"])
      (by decide)).2.1,
    (c8_pool_checkout_release ⟨1⟩ (Except.error "boom") (by decide)).1⟩

namespace Docs5

/-- The not-found message raised by the pg-variant mutations
(`Post avec ... ${id} non trouvé` in the source; punctuation and accents
are dropped here, the claims only depend on an error message existing). -/
def notFoundMsg (id : Nat) : String :=
  "Post avec ID " ++ toString id ++ " non trouve"

/-- The row transformation of the dynamically built
`UPDATE posts SET ... WHERE id = $n RETURNING *`: each column named by a
defined argument is set, `updated_at` is always set to the current
timestamp (modelled by a fixed marker string). -/
def applyUpdate (title content : Option String) (published : Option Bool)
    (p : Post) : Post :=
  { p with
    title := title.getD p.title
    content := content.getD p.content
    published := published.getD p.published
    updatedAt := some "CURRENT_TIMESTAMP" }

/-- The pg-variant `updatePost` mutation: run the dynamic UPDATE; if it
returns no row, throw the not-found error, else return the updated row. -/
def updatePost (table : List Post) (id : Nat) (title content : Option String)
    (published : Option Bool) : Except String (Post × List Post) :=
  let updatedRows :=
    (table.filter (fun (p : Post) => p.id == id)).map
      (applyUpdate title content published)
  match updatedRows with
  | [] => .error (notFoundMsg id)
  | r :: _ =>
    .ok (r, table.map (fun (p : Post) =>
      if p.id == id then applyUpdate title content published p else p))

/-- The pg-variant `deletePost` mutation: select the post first; if no
row matches, throw the not-found error, else delete and return it. -/
def deletePost (table : List Post) (id : Nat) :
    Except String (Post × List Post) :=
  match table.filter (fun (p : Post) => p.id == id) with
  | [] => .error (notFoundMsg id)
  | p :: _ => .ok (p, table.filter (fun (q : Post) => !(q.id == id)))

end Docs5

namespace Prisma

/-- A `User` row of the Prisma schema used by `server.js`. -/
structure User where
  id : Nat
  name : String
  email : String
  password : String
deriving Repr, DecidableEq

/-- A `Post` row of the Prisma schema used by `server.js`. -/
structure Post where
  id : Nat
  title : String
  content : String
  summary : Option String
  published : Bool
  authorId : Nat
  createdAt : String
  updatedAt : Option String
deriving Repr, DecidableEq

/-- Modelled from the spec: the Prisma client (`./prisma/client`) is not
under the sources; per the data model, the store holds `User` and `Post`
rows related by `authorId`, with `id` a primary key assigned by the
database sequence `nextPostId`. -/
structure DB where
  users : List User
  posts : List Post
  nextPostId : Nat
deriving Repr, DecidableEq

/-- The `user(id)` resolver (`prisma.user.findUnique` on the parsed id). -/
def user (db : DB) (id : Nat) : Option User :=
  db.users.find? (fun u => u.id == id)

/-- The `post(id)` resolver (`prisma.post.findUnique` on the parsed id). -/
def post (db : DB) (id : Nat) : Option Post :=
  db.posts.find? (fun p => p.id == id)

/-- The `createPost` mutation: `prisma.post.create` with the submitted
fields (`published` defaults to `false` at the resolver when omitted; the
value after defaulting is the argument here). Modelled from the spec for
the client part: the new row gets the next sequence id and `createdAt`
from the database clock (a fixed marker string here). -/
def createPost (db : DB) (title content : String) (summary : Option String)
    (published : Bool) (authorId : Nat) : Post × DB :=
  let newPost : Post :=
    { id := db.nextPostId
      title := title
      content := content
      summary := summary
      published := published
      authorId := authorId
      createdAt := "now"
      updatedAt := none }
  (newPost, { db with posts := db.posts ++ [newPost],
                      nextPostId := db.nextPostId + 1 })

/-- The `data` object built by `updatePost`: one slot per column, `none`
when the argument was `undefined` and the column is therefore not part of
the update. The `summary` argument is a nullable string, so its defined
value is itself an `Option`. -/
structure UpdateData where
  title : Option String
  content : Option String
  summary : Option (Option String)
  published : Option Bool
deriving Repr, DecidableEq

/-- The `if (arg !== undefined) data.col = arg` chain of `updatePost`. -/
def buildUpdateData (title content : Option String)
    (summary : Option (Option String)) (published : Option Bool) :
    UpdateData :=
  { title := title, content := content, summary := summary,
    published := published }

/-- Modelled from the spec: `prisma.post.update` writes exactly the
columns present in `data` onto the row, leaving every other column of the
row untouched. -/
def applyUpdateData (d : UpdateData) (p : Post) : Post :=
  { p with
    title := d.title.getD p.title
    content := d.content.getD p.content
    summary := d.summary.getD p.summary
    published := d.published.getD p.published }

/-- The `updatePost` mutation: build `data` from the defined arguments and
run `prisma.post.update` on the parsed id; a missing row is a thrown
client error. -/
def updatePost (db : DB) (id : Nat) (title content : Option String)
    (summary : Option (Option String)) (published : Option Bool) :
    Except String (Post × DB) :=
  let d := buildUpdateData title content summary published
  match db.posts.find? (fun p => p.id == id) with
  | none => .error "Record to update not found"
  | some p =>
    .ok (applyUpdateData d p,
      { db with posts := db.posts.map (fun q =>
          if q.id == id then applyUpdateData d q else q) })

/-- The `deletePost` mutation: `prisma.post.delete` on the parsed id,
returning the deleted row; a missing row is a thrown client error. The
primary key makes the matching row unique, so removing every row with
this id removes exactly that row. -/
def deletePost (db : DB) (id : Nat) : Except String (Post × DB) :=
  match db.posts.find? (fun p => p.id == id) with
  | none => .error "Record to delete does not exist"
  | some p =>
    .ok (p, { db with posts := db.posts.filter (fun q => !(q.id == id)) })

end Prisma

namespace ArrayApi

/-- A JavaScript id value as compared by `===`: the seeded posts carry
string ids, while `createPost` assigns the number `posts.length + 1`, and
a string is never strictly equal to a number. -/
inductive JsId where
  | str (s : String)
  | num (n : Nat)
deriving Repr, DecidableEq

/-- A post object of the array-backed variant server. -/
structure Post where
  id : JsId
  title : String
  content : String
  summary : Option String
  published : Bool
  createdAt : String
  updatedAt : Option String
deriving Repr, DecidableEq

/-- The three seeded posts (string ids "1", "2", "3"; the French text is
abbreviated, only ids and field distinctness matter to the claims). -/
def seedPosts : List Post :=
  [{ id := .str "1", title := "Introduction a GraphQL",
     content := "GraphQL est un langage de requete pour les API...",
     summary := some "Les concepts de base de GraphQL.",
     published := true, createdAt := "2025-03-15",
     updatedAt := some "2025-03-16" },
   { id := .str "2", title := "Les avantages de GraphQL par rapport a REST",
     content := "GraphQL offre plusieurs avantages...",
     summary := some "Analyse comparative GraphQL et REST.",
     published := true, createdAt := "2025-03-17", updatedAt := none },
   { id := .str "3", title := "Comment structurer un schema GraphQL efficace",
     content := "La conception est essentielle...",
     summary := some "Meilleures pratiques pour votre schema.",
     published := true, createdAt := "2025-03-18",
     updatedAt := some "2025-03-18" }]

/-- A thrown JavaScript error; the only kind these resolvers can raise is
a `TypeError` from dereferencing `undefined`. -/
inductive JsError where
  | typeError (msg : String)
deriving Repr, DecidableEq

/-- The `postID(id)` resolver: `posts.find(post => post.id === id)`
(`undefined`, i.e. `none`, when no post matches). -/
def postID (posts : List Post) (id : JsId) : Option Post :=
  posts.find? (fun p => p.id == id)

/-- The `postSummary(id)` resolver:
`posts.find(post => post.id === id).summary` — dereferencing the result
of `find` without a guard, so a missing id throws a `TypeError`. -/
def postSummary (posts : List Post) (id : JsId) :
    Except JsError (Option String) :=
  match posts.find? (fun p => p.id == id) with
  | some p => .ok p.summary
  | none => .error (.typeError "Cannot read properties of undefined")

/-- The `postContent(id)` resolver, with the same unguarded dereference
as `postSummary`. -/
def postContent (posts : List Post) (id : JsId) :
    Except JsError (Option String) :=
  match posts.find? (fun p => p.id == id) with
  | some p => .ok (some p.content)
  | none => .error (.typeError "Cannot read properties of undefined")

/-- The `createPost` mutation: build the new post with
`id: posts.length + 1` (a number) and push it onto the array. -/
def createPost (posts : List Post) (title content : String)
    (summary : Option String) (published : Bool) (createdAt : String)
    (updatedAt : Option String) : Post × List Post :=
  let newPost : Post :=
    { id := .num (posts.length + 1)
      title := title
      content := content
      summary := summary
      published := published
      createdAt := createdAt
      updatedAt := updatedAt }
  (newPost, posts ++ [newPost])

/-- The `updatePost` mutation: find the index of the first post with the
given id and overwrite that slot with a post rebuilt from the arguments;
when no post matches, return `null` — the body contains no `throw`, so
the result is always `Except.ok`. -/
def updatePost (posts : List Post) (id : JsId) (title content : String)
    (summary : Option String) (published : Bool) (createdAt : String)
    (updatedAt : Option String) : Except JsError (Option Post × List Post) :=
  match posts.findIdx? (fun p => p.id == id) with
  | some index =>
    let updatedPost : Post :=
      { id := id, title := title, content := content, summary := summary,
        published := published, createdAt := createdAt,
        updatedAt := updatedAt }
    .ok (some updatedPost, posts.set index updatedPost)
  | none => .ok (none, posts)

/-- The `deletePost` mutation: find the first post with the given id,
splice it out of the array and return it; when no post matches, fall
through and return `undefined` — again no `throw`, always `Except.ok`.
Splicing one element at the found index is removing the first match
(`List.eraseP`). -/
def deletePost (posts : List Post) (id : JsId) :
    Except JsError (Option Post × List Post) :=
  match posts.find? (fun p => p.id == id) with
  | some p => .ok (some p, posts.eraseP (fun q => q.id == id))
  | none => .ok (none, posts)

end ArrayApi

/-- Helper: appending a fresh element (the only one matching `p`) makes it
the result of `find?`. -/
theorem find_append_fresh {α : Type} (p : α → Bool) (l : List α) (a : α)
    (h : ∀ x ∈ l, p x = false) (ha : p a = true) :
    (l ++ [a]).find? p = some a := by
  induction l with
  | nil => simpa using List.find?_cons_of_pos [] ha
  | cons b t ih =>
    have hb : p b = false := h b (by simp)
    rw [List.cons_append, List.find?_cons_of_neg _ (by simp [hb])]
    exact ih (fun x hx => h x (by simp [hx]))

/-- Helper: if at most one element satisfies `p`, then after erasing the
first match nothing satisfying `p` remains. -/
theorem find_erase_first_match_none {α : Type} (p : α → Bool) (l : List α)
    (h : List.Pairwise (fun x y => ¬(p x = true ∧ p y = true)) l) :
    (l.eraseP p).find? p = none := by
  induction l with
  | nil => simp
  | cons b t ih =>
    rcases List.pairwise_cons.mp h with ⟨hb, ht⟩
    by_cases hpb : p b = true
    · rw [List.eraseP_cons_of_pos hpb, List.find?_eq_none]
      intro x hx hpx
      exact hb x hx ⟨hpb, hpx⟩
    · rw [List.eraseP_cons_of_neg hpb, List.find?_cons_of_neg _ hpb]
      exact ih ht

/-- Helper: if at most one element satisfies `p` and the member `a`
does, `find?` returns exactly `a`. -/
theorem find_eq_some_of_unique {α : Type} (p : α → Bool) (l : List α)
    (a : α) (hmem : a ∈ l) (hpa : p a = true)
    (h : List.Pairwise (fun x y => ¬(p x = true ∧ p y = true)) l) :
    l.find? p = some a := by
  induction l with
  | nil => cases hmem
  | cons b t ih =>
    rcases List.pairwise_cons.mp h with ⟨hb, ht⟩
    rcases List.mem_cons.mp hmem with hab | hat
    · subst hab
      exact List.find?_cons_of_pos _ hpa
    · have hpb : ¬p b = true := fun hpb => hb a hat ⟨hpb, hpa⟩
      rw [List.find?_cons_of_neg _ hpb]
      exact ih hat ht

/-- C6: whenever `user(id)`, `post(id)` or the array-variant `postID(id)`
returns a record, that record's `id` field equals the requested id. -/
theorem c6_lookup_id_matches :
    (∀ (db : Prisma.DB) (id : Nat) (u : Prisma.User),
        Prisma.user db id = some u → u.id = id) ∧
    (∀ (db : Prisma.DB) (id : Nat) (p : Prisma.Post),
        Prisma.post db id = some p → p.id = id) ∧
    (∀ (posts : List ArrayApi.Post) (id : ArrayApi.JsId)
        (p : ArrayApi.Post), ArrayApi.postID posts id = some p →
        p.id = id) := by
  refine ⟨?_, ?_, ?_⟩
  · intro db id u h
    simpa using List.find?_some h
  · intro db id p h
    simpa using List.find?_some h
  · intro posts id p h
    simpa using List.find?_some h

/-- Small concrete stores used by witnesses. -/
def cdbUser : Prisma.User := ⟨1, "Guigui", "g@example.com", "pw"⟩

def cdbPost : Prisma.Post := ⟨1, "Titre", "Contenu", none, true, 1, "now", none⟩

def cdb : Prisma.DB := ⟨[cdbUser], [cdbPost], 2⟩

def capost : ArrayApi.Post := ⟨.str "1", "t", "c", none, true, "d", none⟩

/-- C6 witness: the lookups on one-record stores return records carrying
the requested ids. -/
theorem c6_lookup_id_matches_witness :
    cdbUser.id = 1 ∧ cdbPost.id = 1 ∧ capost.id = .str "1" :=
  ⟨c6_lookup_id_matches.1 cdb 1 cdbUser (by decide),
   c6_lookup_id_matches.2.1 cdb 1 cdbPost (by decide),
   c6_lookup_id_matches.2.2 [capost] (.str "1") capost (by decide)⟩

/-- A store reachable from the seeded array store (delete the three
seeds, create twice — ids `num 1`, `num 2` — then delete `num 1`): one
post left whose id is the number 2, which is exactly the id
`posts.length + 1` that the next `createPost` will assign. -/
def clashPosts : List ArrayApi.Post :=
  [{ id := .num 2, title := "ancien", content := "ancien contenu",
     summary := none, published := true, createdAt := "2025-04-01",
     updatedAt := none }]

/-- C4 counterexample: in the array-backed variant `createPost` assigns
`id = posts.length + 1`, which can collide with an existing id (after
deletions); `postID` then returns the *older* post, whose fields are not
the submitted ones — here the submitted title is "nouveau" but the
lookup by the returned id yields the post titled "ancien". -/
theorem c4_counterexample :
    (ArrayApi.createPost clashPosts "nouveau" "contenu" none true
        "2025-04-02" none).1.title = "nouveau" ∧
      (ArrayApi.postID
          (ArrayApi.createPost clashPosts "nouveau" "contenu" none true
            "2025-04-02" none).2
          (ArrayApi.createPost clashPosts "nouveau" "contenu" none true
            "2025-04-02" none).1.id).map (fun p => p.title) =
        some "ancien" := by
  decide

/-- C4 (amended): `createPost` followed by a lookup by the returned id
yields the submitted field values — unconditionally in spirit for the
Prisma variant (its primary-key sequence never reuses a live id, stated
here as a freshness hypothesis), and in the array-backed variant only
provided no existing post already carries the id `posts.length + 1`
(which deletions can violate). -/
theorem c4_create_lookup_roundtrip :
    (∀ (db : Prisma.DB) (title content : String) (summary : Option String)
        (published : Bool) (authorId : Nat),
        (∀ p ∈ db.posts, p.id ≠ db.nextPostId) →
        Prisma.post
            (Prisma.createPost db title content summary published
              authorId).2
            (Prisma.createPost db title content summary published
              authorId).1.id =
          some (Prisma.createPost db title content summary published
            authorId).1 ∧
        (Prisma.createPost db title content summary published
            authorId).1.title = title ∧
        (Prisma.createPost db title content summary published
            authorId).1.content = content ∧
        (Prisma.createPost db title content summary published
            authorId).1.summary = summary ∧
        (Prisma.createPost db title content summary published
            authorId).1.published = published ∧
        (Prisma.createPost db title content summary published
            authorId).1.authorId = authorId) ∧
    (∀ (posts : List ArrayApi.Post) (title content : String)
        (summary : Option String) (published : Bool) (createdAt : String)
        (updatedAt : Option String),
        (∀ p ∈ posts, p.id ≠ .num (posts.length + 1)) →
        ArrayApi.postID
            (ArrayApi.createPost posts title content summary published
              createdAt updatedAt).2
            (ArrayApi.createPost posts title content summary published
              createdAt updatedAt).1.id =
          some (ArrayApi.createPost posts title content summary published
            createdAt updatedAt).1 ∧
        (ArrayApi.createPost posts title content summary published
            createdAt updatedAt).1.title = title ∧
        (ArrayApi.createPost posts title content summary published
            createdAt updatedAt).1.content = content ∧
        (ArrayApi.createPost posts title content summary published
            createdAt updatedAt).1.summary = summary ∧
        (ArrayApi.createPost posts title content summary published
            createdAt updatedAt).1.published = published) := by
  constructor
  · intro db title content summary published authorId h
    refine ⟨?_, rfl, rfl, rfl, rfl, rfl⟩
    simp only [Prisma.post, Prisma.createPost]
    apply find_append_fresh
    · intro x hx
      have hne := h x hx
      simpa using hne
    · simp
  · intro posts title content summary published createdAt updatedAt h
    refine ⟨?_, rfl, rfl, rfl, rfl⟩
    simp only [ArrayApi.postID, ArrayApi.createPost]
    apply find_append_fresh
    · intro x hx
      have hne := h x hx
      simpa using hne
    · simp

/-- C4 witness: the round trip at a one-post Prisma store and at the
empty array store. -/
theorem c4_create_lookup_roundtrip_witness :
    Prisma.post (Prisma.createPost cdb "T2" "C2" none false 1).2
        (Prisma.createPost cdb "T2" "C2" none false 1).1.id =
      some (Prisma.createPost cdb "T2" "C2" none false 1).1 ∧
    ArrayApi.postID (ArrayApi.createPost [] "T" "C" none true "d" none).2
        (ArrayApi.createPost [] "T" "C" none true "d" none).1.id =
      some (ArrayApi.createPost [] "T" "C" none true "d" none).1 :=
  ⟨(c4_create_lookup_roundtrip.1 cdb "T2" "C2" none false 1
      (by decide)).1,
   (c4_create_lookup_roundtrip.2 [] "T" "C" none true "d" none
      (by simp)).1⟩

/-- Two posts sharing the id `num 2` — reachable from the seeded array
store by deleting the seeds, creating twice (`num 1`, `num 2`), deleting
`num 1` and creating again (which reassigns `posts.length + 1 = 2`). -/
def dupFirst : ArrayApi.Post :=
  ⟨.num 2, "premier", "contenu premier", none, true, "2025-04-01", none⟩

def dupSecond : ArrayApi.Post :=
  ⟨.num 2, "second", "contenu second", none, true, "2025-04-02", none⟩

def dupPosts : List ArrayApi.Post := [dupFirst, dupSecond]

/-- C5 counterexample: with two posts carrying the same id (reachable via
the `createPost` id collision of `c4_counterexample`), `deletePost`
splices out only the first match, and the subsequent `postID` lookup for
the same id still returns a record instead of null. -/
theorem c5_counterexample :
    ArrayApi.deletePost dupPosts (ArrayApi.JsId.num 2) =
      .ok (some dupFirst, [dupSecond]) ∧
      ArrayApi.postID [dupSecond] (ArrayApi.JsId.num 2) =
        some dupSecond := by
  exact ⟨rfl, rfl⟩

/-- C5 (amended): for every id present in the store, `deletePost(id)`
removes that record so that a subsequent lookup returns null — in the
Prisma variant whenever the id is present (the primary key makes the row
unique), and in the array-backed variant additionally provided the
stored ids are pairwise distinct (which `createPost` id collisions can
violate). -/
theorem c5_delete_then_lookup :
    (∀ (db : Prisma.DB) (id : Nat) (p : Prisma.Post),
        Prisma.post db id = some p →
        ∃ db', Prisma.deletePost db id = .ok (p, db') ∧
          Prisma.post db' id = none) ∧
    (∀ (posts : List ArrayApi.Post) (id : ArrayApi.JsId)
        (p : ArrayApi.Post),
        posts.Pairwise (fun a b => a.id ≠ b.id) →
        ArrayApi.postID posts id = some p →
        ∃ posts', ArrayApi.deletePost posts id = .ok (some p, posts') ∧
          ArrayApi.postID posts' id = none) := by
  constructor
  · intro db id p h
    simp only [Prisma.post] at h
    refine ⟨{ db with posts := db.posts.filter (fun q => !(q.id == id)) },
      ?_, ?_⟩
    · simp only [Prisma.deletePost, h]
    · simp only [Prisma.post, List.find?_eq_none]
      intro x hx
      rcases List.mem_filter.mp hx with ⟨_, hpred⟩
      simp only [Bool.not_eq_eq_eq_not, Bool.not_true] at hpred
      simp [hpred]
  · intro posts id p huniq h
    simp only [ArrayApi.postID] at h
    have hpair : posts.Pairwise
        (fun x y => ¬((x.id == id) = true ∧ (y.id == id) = true)) := by
      refine huniq.imp ?_
      intro a b hab hcontra
      rcases hcontra with ⟨ha, hb⟩
      rw [beq_iff_eq] at ha hb
      exact hab (ha.trans hb.symm)
    refine ⟨posts.eraseP (fun q => q.id == id), ?_, ?_⟩
    · simp only [ArrayApi.deletePost, h]
    · simp only [ArrayApi.postID]
      exact find_erase_first_match_none _ _ hpair

/-- C5 witness: deleting the single record of each one-post store makes
the subsequent lookup return null. -/
theorem c5_delete_then_lookup_witness :
    (∃ db', Prisma.deletePost cdb 1 = .ok (cdbPost, db') ∧
        Prisma.post db' 1 = none) ∧
    (∃ posts', ArrayApi.deletePost [capost] (.str "1") =
        .ok (some capost, posts') ∧
        ArrayApi.postID posts' (.str "1") = none) :=
  ⟨c5_delete_then_lookup.1 cdb 1 cdbPost (by decide),
   c5_delete_then_lookup.2 [capost] (.str "1") capost (by simp)
     (by decide)⟩

/-- C7 counterexample: in the array-backed variant, `updatePost` on a
missing id does not raise any exception — it returns `null` normally
(`Except.ok none`), leaving the store untouched. -/
theorem c7_counterexample :
    ArrayApi.updatePost ArrayApi.seedPosts (.str "9") "titre" "contenu"
        none true "2025-04-01" none =
      .ok (none, ArrayApi.seedPosts) := by
  exact rfl

/-- C7 (amended): a mutation on a missing resource raises a generic
exception with a human-readable not-found message in the pg variant
(`updatePost` and `deletePost` both throw), while the array-backed
variant instead returns `null` (update) or `undefined` (delete) without
raising anything. -/
theorem c7_missing_resource (table : List Docs5.Post) (id : Nat)
    (title content : Option String) (published : Option Bool)
    (posts : List ArrayApi.Post) (jid : ArrayApi.JsId)
    (atitle acontent : String) (asummary : Option String)
    (apublished : Bool) (acreatedAt : String)
    (aupdatedAt : Option String) :
    ((∀ p ∈ table, p.id ≠ id) →
      Docs5.updatePost table id title content published =
          .error (Docs5.notFoundMsg id) ∧
        Docs5.deletePost table id = .error (Docs5.notFoundMsg id)) ∧
    ((∀ p ∈ posts, p.id ≠ jid) →
      ArrayApi.updatePost posts jid atitle acontent asummary apublished
          acreatedAt aupdatedAt = .ok (none, posts) ∧
        ArrayApi.deletePost posts jid = .ok (none, posts)) := by
  constructor
  · intro h
    have hfilter : table.filter (fun (p : Docs5.Post) => p.id == id) = [] := by
      rw [List.filter_eq_nil_iff]
      intro p hp
      simpa using h p hp
    constructor
    · simp only [Docs5.updatePost, hfilter, List.map_nil]
    · simp only [Docs5.deletePost, hfilter]
  · intro h
    have hfind : posts.find? (fun p => p.id == jid) = none := by
      rw [List.find?_eq_none]
      intro p hp
      simpa using h p hp
    have hidx : posts.findIdx? (fun p => p.id == jid) = none := by
      rw [List.findIdx?_eq_none_iff]
      intro p hp
      simpa using h p hp
    constructor
    · simp only [ArrayApi.updatePost, hidx]
    · simp only [ArrayApi.deletePost, hfind]

/-- C7 witness: id 99 is absent from both one-record stores; the pg
variant throws the not-found error and the array variant returns null. -/
theorem c7_missing_resource_witness :
    Docs5.deletePost [] 99 = .error (Docs5.notFoundMsg 99) ∧
      ArrayApi.deletePost [capost] (.str "99") = .ok (none, [capost]) :=
  ⟨(c7_missing_resource [] 99 none none none [capost] (.str "99") "t"
      "c" none true "d" none).1 (by simp) |>.2,
   (c7_missing_resource [] 99 none none none [capost] (.str "99") "t"
      "c" none true "d" none).2 (by decide) |>.2⟩

/-- Helper: if at most one element satisfies `p`, two members that both
satisfy `p` are equal. -/
theorem pairwise_unique_match {α : Type} (p : α → Bool) (l : List α)
    (a b : α)
    (h : List.Pairwise (fun x y => ¬(p x = true ∧ p y = true)) l)
    (ha : a ∈ l) (hb : b ∈ l) (hpa : p a = true) (hpb : p b = true) :
    a = b := by
  induction l with
  | nil => cases ha
  | cons c t ih =>
    rcases List.pairwise_cons.mp h with ⟨hc, ht⟩
    rcases List.mem_cons.mp ha with hac | hat
    · rcases List.mem_cons.mp hb with hbc | hbt
      · rw [hac, hbc]
      · exact absurd ⟨hac ▸ hpa, hpb⟩ (hc b hbt)
    · rcases List.mem_cons.mp hb with hbc | hbt
      · exact absurd ⟨hbc ▸ hpb, hpa⟩ (hc a hat)
      · exact ih ht hat hbt

/-- C9: the Prisma `updatePost` changes only the columns whose arguments
are defined: on the addressed post every column with an `undefined`
argument keeps its prior value (including `id`, `authorId`, `createdAt`
and `updatedAt`, which are never part of `data`), every other post is
mapped to itself, and the user table is untouched. -/
theorem c9_update_only_defined_fields (db : Prisma.DB) (id : Nat)
    (title content : Option String) (summary : Option (Option String))
    (published : Option Bool) (p : Prisma.Post) (hmem : p ∈ db.posts)
    (hpid : p.id = id)
    (huniq : db.posts.Pairwise (fun a b => a.id ≠ b.id)) :
    ∃ p' db', Prisma.updatePost db id title content summary published =
        .ok (p', db') ∧
      db'.users = db.users ∧
      db'.nextPostId = db.nextPostId ∧
      p'.id = p.id ∧ p'.authorId = p.authorId ∧
      p'.createdAt = p.createdAt ∧ p'.updatedAt = p.updatedAt ∧
      p'.title = title.getD p.title ∧
      p'.content = content.getD p.content ∧
      p'.summary = summary.getD p.summary ∧
      p'.published = published.getD p.published ∧
      db'.posts = db.posts.map (fun q => if q.id = id then p' else q) ∧
      (∀ q ∈ db.posts, q.id ≠ id → q ∈ db'.posts) := by
  have hpair : db.posts.Pairwise
      (fun x y => ¬((x.id == id) = true ∧ (y.id == id) = true)) := by
    refine huniq.imp ?_
    intro a b hab hcontra
    rcases hcontra with ⟨ha, hb⟩
    rw [beq_iff_eq] at ha hb
    exact hab (ha.trans hb.symm)
  have hfind : db.posts.find? (fun q => q.id == id) = some p :=
    find_eq_some_of_unique _ _ p hmem (by simp [hpid]) hpair
  refine ⟨Prisma.applyUpdateData
      (Prisma.buildUpdateData title content summary published) p,
    { db with posts := db.posts.map (fun q =>
        if q.id == id then
          Prisma.applyUpdateData
            (Prisma.buildUpdateData title content summary published) q
        else q) },
    ?_, rfl, rfl, rfl, rfl, rfl, rfl, rfl, rfl, rfl, rfl, ?_, ?_⟩
  · simp only [Prisma.updatePost, hfind]
  · show db.posts.map _ = db.posts.map _
    apply List.map_congr_left
    intro q hq
    by_cases hqid : q.id = id
    · have hqp : q = p :=
        pairwise_unique_match _ db.posts q p hpair hq hmem
          (by simp [hqid]) (by simp [hpid])
      simp [hqid, hqp]
    · simp [hqid]
  · intro q hq hqid
    show q ∈ db.posts.map _
    refine List.mem_map.mpr ⟨q, hq, ?_⟩
    simp [hqid]

/-- C9 witness: updating only the title of the single stored post leaves
its other columns and the user table intact. -/
theorem c9_update_only_defined_fields_witness :
    ∃ p' db', Prisma.updatePost cdb 1 (some "Nouveau titre") none none
        none = .ok (p', db') ∧
      db'.users = cdb.users ∧ p'.content = cdbPost.content ∧
      p'.published = cdbPost.published := by
  obtain ⟨p', db', h1, h2, _, _, _, _, _, _, hcontent, _, hpub, _⟩ :=
    c9_update_only_defined_fields cdb 1 (some "Nouveau titre") none none
      none cdbPost (by decide) (by decide) (by simp [cdb])
  exact ⟨p', db', h1, h2, by simp [hcontent], by simp [hpub]⟩

/-- C10: the array-variant `postSummary` and `postContent` dereference
the result of `find` without a guard: for every id matching no post they
throw a `TypeError` rather than returning null, and they return a value
only when a post with that id exists (and then it is that post's
summary/content). -/
theorem c10_unguarded_dereference (posts : List ArrayApi.Post)
    (id : ArrayApi.JsId) :
    ((∀ p ∈ posts, p.id ≠ id) →
      ArrayApi.postSummary posts id =
          .error (.typeError "Cannot read properties of undefined") ∧
        ArrayApi.postContent posts id =
          .error (.typeError "Cannot read properties of undefined")) ∧
    (∀ v, ArrayApi.postSummary posts id = .ok v →
      ∃ p, p ∈ posts ∧ p.id = id ∧ v = p.summary) ∧
    (∀ v, ArrayApi.postContent posts id = .ok v →
      ∃ p, p ∈ posts ∧ p.id = id ∧ v = some p.content) := by
  refine ⟨?_, ?_, ?_⟩
  · intro h
    have hfind : posts.find? (fun p => p.id == id) = none := by
      rw [List.find?_eq_none]
      intro p hp
      simpa using h p hp
    exact ⟨by simp only [ArrayApi.postSummary, hfind],
      by simp only [ArrayApi.postContent, hfind]⟩
  · intro v hv
    simp only [ArrayApi.postSummary] at hv
    rcases hfind : posts.find? (fun p => p.id == id) with _ | p
    · rw [hfind] at hv
      cases hv
    · rw [hfind] at hv
      refine ⟨p, List.mem_of_find?_eq_some hfind, ?_, ?_⟩
      · simpa using List.find?_some hfind
      · cases hv
        rfl
  · intro v hv
    simp only [ArrayApi.postContent] at hv
    rcases hfind : posts.find? (fun p => p.id == id) with _ | p
    · rw [hfind] at hv
      cases hv
    · rw [hfind] at hv
      refine ⟨p, List.mem_of_find?_eq_some hfind, ?_, ?_⟩
      · simpa using List.find?_some hfind
      · cases hv
        rfl

/-- C10 witness: id "9" matches no seeded post, so `postSummary` throws
the `TypeError`; id "1" matches, so `postContent` returns a value. -/
theorem c10_unguarded_dereference_witness :
    ArrayApi.postSummary ArrayApi.seedPosts (.str "9") =
        .error (.typeError "Cannot read properties of undefined") ∧
      ∃ p, p ∈ [capost] ∧ p.id = .str "1" ∧
        some "c" = some p.content :=
  ⟨((c10_unguarded_dereference ArrayApi.seedPosts (.str "9")).1
      (by decide)).1,
   (c10_unguarded_dereference [capost] (.str "1")).2.2 (some "c")
     (by rfl)⟩

/-- C1 witness: with two users, page size 1 and no cursor, more than one
record lies beyond the cursor position, so `hasNextPage` is true. -/
theorem c1_pagination_bounds_witness :
    (Docs4.users [⟨"1", "A", "a@x"⟩, ⟨"2", "B", "b@x"⟩] 1
        none).pageInfo.hasNextPage = true :=
  (c1_pagination_bounds [⟨"1", "A", "a@x"⟩, ⟨"2", "B", "b@x"⟩] [] 1 none
      none).2.1.mpr (by decide)
